import Mathlib

/-!
Verification of the Changr image-variant store and transform-preserving
switcher, a shallow embedding of `src/helpers.ts` and `src/main.tsx`.

Untyped item metadata is modelled by the JSON-like type `Value`; an item's
metadata bag is a keyed list of `Value`s.  JavaScript numbers are modelled
as rationals, a missing object field (JS `undefined`) as `Option.none`.
Each store/switcher operation is translated as its per-item
read-modify-write body: the host's `updateItems` transaction applies that
body to each matched item independently.
-/

/-- A JSON-compatible metadata value, as stored in an item's metadata bag. -/
inductive Value : Type where
  | vNull : Value
  | vBool : Bool → Value
  | vNum : ℚ → Value
  | vStr : String → Value
  | vArr : List Value → Value
  | vObj : List (String × Value) → Value

/-- Field access `v[k]`: `some` when `v` is an object carrying field `k`,
`none` (JS `undefined`) otherwise.  (JS property access on `null` throws;
no code path modelled here reads a field of a `null` entry.) -/
def Value.get : Value → String → Option Value
  | .vObj fs, k => fs.lookup k
  | _, _ => none

/-- Function `isPlainObject` from `src/helpers.ts`: the value is a plain keyed object.
Arrays, `null` and primitives fail the check (`item.constructor === Object`). -/
def isPlainObject : Value → Bool
  | .vObj _ => true
  | _ => false

/-- Check `typeof v === 'string'` for an accessed field (`none` = `undefined`). -/
def isStrOpt : Option Value → Bool
  | some (.vStr _) => true
  | _ => false

/-- Check `typeof v === 'number'` for an accessed field (`none` = `undefined`). -/
def isNumOpt : Option Value → Bool
  | some (.vNum _) => true
  | _ => false

/-- Check `v === undefined || typeof v === 'number'`: the optional-numeric-field
check used for `dpi` and `rotation` in `isImageOption`. -/
def optNumOk (o : Option Value) : Bool :=
  o.isNone || isNumOpt o

/-- The optional-offset check in `isImageOption`:
`obj.offset === undefined || (isPlainObject(obj.offset) &&
typeof obj.offset.x === 'number' && typeof obj.offset.y === 'number')`. -/
def offsetFieldOk : Option Value → Bool
  | none => true
  | some off => isPlainObject off && isNumOpt (off.get "x") && isNumOpt (off.get "y")

/-- Function `isImageOption` from `src/helpers.ts`: the structural type guard for a
stored variant record. -/
def isImageOption (v : Value) : Bool :=
  isPlainObject v &&
  isStrOpt (v.get "id") &&
  isStrOpt (v.get "url") &&
  isNumOpt (v.get "width") &&
  isNumOpt (v.get "height") &&
  isStrOpt (v.get "name") &&
  optNumOk (v.get "dpi") &&
  offsetFieldOk (v.get "offset") &&
  optNumOk (v.get "rotation")

/-- A 2D vector, as used for `scale` and grid `offset` on host items. -/
structure Vector2 where
  x : ℚ
  y : ℚ

/-- An item's grid settings object (`grid.dpi`, `grid.offset`), each field
possibly absent. -/
structure GridSettings where
  dpi : Option ℚ
  offset : Option Vector2

/-- The `image` sub-object of a host image item: asset url and native pixel
dimensions. -/
structure ImageRef where
  url : String
  width : ℚ
  height : ℚ

/-- The slice of a host scene item that the plugin reads and writes. -/
structure Item where
  id : String
  name : String
  image : ImageRef
  scale : Vector2
  rotation : ℚ
  grid : Option GridSettings
  metadata : List (String × Value)

/-- The `ImageOption` interface from `src/helpers.ts` (the typed variant
record). -/
structure ImageOption where
  id : String
  url : String
  width : ℚ
  height : ℚ
  name : String
  dpi : Option ℚ
  offset : Option Vector2
  rotation : Option ℚ

/-- The plain-object form of an `ImageOption` as it is stored in metadata.
Optional fields that are `undefined` are omitted: the host persists metadata
as JSON, which drops `undefined`-valued keys, and every check the code
performs (`obj.dpi === undefined`) treats the two forms identically. -/
def ImageOption.encode (o : ImageOption) : Value :=
  .vObj ([("id", .vStr o.id), ("url", .vStr o.url), ("width", .vNum o.width),
          ("height", .vNum o.height), ("name", .vStr o.name)] ++
    (match o.dpi with
     | some d => [("dpi", .vNum d)]
     | none => []) ++
    (match o.offset with
     | some off => [("offset", .vObj [("x", .vNum off.x), ("y", .vNum off.y)])]
     | none => []) ++
    (match o.rotation with
     | some r => [("rotation", .vNum r)]
     | none => []))

/-- Modelled from the spec: `getPluginId` lives in `src/getPluginId.ts`,
which is not among the provided sources; per §3/§6 of the spec it produces
the extension's namespaced metadata key.  The exact key text is irrelevant
to every property below; only its identity as a single fixed key is used. -/
def getPluginId (s : String) : String :=
  "com.missinglink.changr/" ++ s

/-- The one metadata key the plugin reads and writes. -/
def pluginMetaKey : String :=
  getPluginId "metadata"

/-- JS object update `{...fs, k: v}` (equivalently assignment `fs[k] = v`):
the binding of `k` is replaced by `v`, every other binding is kept. -/
def setField {β : Type} (fs : List (String × β)) (k : String) (v : β) :
    List (String × β) :=
  fs.filter (fun p => p.1 != k) ++ [(k, v)]

/-- Expression `isPlainObject(currentMetadata) ? currentMetadata : {}` — the base object
every write spreads into. -/
def metadataBase : Option Value → List (String × Value)
  | some (.vObj fs) => fs
  | _ => []

/-- The guard `isPlainObject(currentMetadata) &&
Array.isArray(currentMetadata.imageOptions)` together with the raw list it
exposes: `some` exactly when the plugin metadata is a plain object whose
`imageOptions` field is an array. -/
def storedRawOptions : Option Value → Option (List Value)
  | some (.vObj fs) =>
    match fs.lookup "imageOptions" with
    | some (.vArr l) => some l
    | _ => none
  | _ => none

/-- The raw variant list currently stored on an item, when present. -/
def storedList (item : Item) : Option (List Value) :=
  storedRawOptions (item.metadata.lookup pluginMetaKey)

/-- The write pattern shared by every mutating operation:
`item.metadata[pluginKey] = { ...metadataBase, imageOptions: opts }`. -/
def writePluginOptions (item : Item) (opts : List Value) : Item :=
  { item with
    metadata := setField item.metadata pluginMetaKey
      (.vObj (setField (metadataBase (item.metadata.lookup pluginMetaKey))
        "imageOptions" (.vArr opts))) }

/-- Comparison `option.url === u` where `option` is a raw stored entry and `u` a string:
true exactly when the entry is an object whose `url` field is the string `u`. -/
def urlMatches (o : Value) (u : String) : Bool :=
  match o.get "url" with
  | some (.vStr s) => s == u
  | _ => false

/-- Comparison `option.id === i` for a raw stored entry, evaluated in the code only
after `isImageOption option` has succeeded (so `id` is a string there). -/
def idMatches (o : Value) (i : String) : Bool :=
  match o.get "id" with
  | some (.vStr s) => s == i
  | _ => false

/-- The initial record `getImageOptions` synthesizes from the selected
item's live appearance (`crypto.randomUUID()` is passed in as `freshId`;
`selectedItem.name || "Original Image"` falls back on the empty string). -/
def synthesizeOption (freshId : String) (item : Item) : ImageOption :=
  { id := freshId
    url := item.image.url
    width := item.image.width
    height := item.image.height
    name := if item.name = "" then "Original Image" else item.name
    dpi := item.grid.bind GridSettings.dpi
    offset := item.grid.bind GridSettings.offset
    rotation := some item.rotation }

/-- Function `getImageOptions` from `src/helpers.ts`, per selected item: if the
plugin metadata holds an `imageOptions` array, return its entries that pass
`isImageOption` and leave the item untouched; otherwise synthesize the
initial record from the live appearance, persist it, and return it. -/
def getImageOptions (freshId : String) (item : Item) : List Value × Item :=
  match storedList item with
  | some l => (l.filter (fun e => isImageOption e), item)
  | none =>
    ([(synthesizeOption freshId item).encode],
      writePluginOptions item [(synthesizeOption freshId item).encode])

/-- The fields `addImageOption` reads off the asset-picker download result
(`imageDownload.image`, `imageDownload.name`, `imageDownload.grid`). -/
structure ImageDownload where
  image : ImageRef
  name : Option String
  grid : Option GridSettings

/-- The record `addImageOption` builds from a download result: fresh id,
`rotation: 0`, name falling back to a timestamp label (passed in as
`fallbackName`) when the download's name is absent or empty. -/
def buildAddOption (freshId fallbackName : String) (d : ImageDownload) :
    ImageOption :=
  { id := freshId
    url := d.image.url
    width := d.image.width
    height := d.image.height
    name :=
      match d.name with
      | some s => if s = "" then fallbackName else s
      | none => fallbackName
    dpi := d.grid.bind GridSettings.dpi
    offset := d.grid.bind GridSettings.offset
    rotation := some 0 }

/-- Function `addImageOption` from `src/helpers.ts`, per selected image item: copy
the raw stored entries (or `[]` when missing/invalid), append the new
record unless some raw entry's `url` equals the new record's `url`, and
write the merged metadata back. -/
def addImageOptionItem (opt : ImageOption) (item : Item) : Item :=
  let imageOptions := (storedList item).getD []
  writePluginOptions item
    (if imageOptions.any (fun e => urlMatches e opt.url) then imageOptions
     else imageOptions ++ [opt.encode])

/-- The record `saveCurrentImageState` builds from the selected item's own
live appearance: fresh id, current url/dimensions/grid/rotation, and name
`customName || `${selectedItem.name} (Current State)``. -/
def saveCurrentOption (freshId : String) (customName : Option String)
    (item : Item) : ImageOption :=
  { id := freshId
    url := item.image.url
    width := item.image.width
    height := item.image.height
    name :=
      match customName with
      | some s => if s = "" then item.name ++ " (Current State)" else s
      | none => item.name ++ " (Current State)"
    dpi := item.grid.bind GridSettings.dpi
    offset := item.grid.bind GridSettings.offset
    rotation := some item.rotation }

/-- Function `saveCurrentImageState` from `src/helpers.ts`, per selected image item:
copy the raw stored entries (or `[]`), append the new record
unconditionally (duplicates of the same url are allowed), write back. -/
def saveCurrentImageStateItem (opt : ImageOption) (item : Item) : Item :=
  writePluginOptions item ((storedList item).getD [] ++ [opt.encode])

/-- The filter predicate of `removeImageOption` in `src/main.tsx`:
`!isImageOption(option) || option.id !== optionId` — an entry is kept when
it is not a valid record, or its id differs from the one being removed. -/
def removeKeep (optionId : String) (o : Value) : Bool :=
  !(isImageOption o) || !(idMatches o optionId)

/-- Function `removeImageOption` from `src/main.tsx`, per selected image item: only
when the plugin metadata is a plain object with an `imageOptions` array,
filter that array with `removeKeep` and write back; otherwise the item is
left untouched (no write). -/
def removeImageOptionItem (optionId : String) (item : Item) : Item :=
  match storedList item with
  | some l => writePluginOptions item (l.filter (removeKeep optionId))
  | none => item

/-- Function `updateItemWithImageOption` from `src/helpers.ts`, per selected image
item: capture the visual footprint, swap the image url and native
dimensions, recompute the scale to keep the footprint, merge defined grid
fields, apply rotation if defined, and set the name. -/
def updateItemWithImageOption (opt : ImageOption) (item : Item) : Item :=
  let currentVisualWidth := item.image.width * item.scale.x
  let currentVisualHeight := item.image.height * item.scale.y
  let newScaleX := currentVisualWidth / opt.width
  let newScaleY := currentVisualHeight / opt.height
  { item with
    image := { url := opt.url, width := opt.width, height := opt.height }
    scale := { x := newScaleX, y := newScaleY }
    grid :=
      if opt.dpi.isSome || opt.offset.isSome then
        some
          { dpi :=
              if opt.dpi.isSome then opt.dpi
              else (item.grid.getD { dpi := none, offset := none }).dpi
            offset :=
              if opt.offset.isSome then opt.offset
              else (item.grid.getD { dpi := none, offset := none }).offset }
      else item.grid
    rotation :=
      match opt.rotation with
      | some r => r
      | none => item.rotation
    name := opt.name }

/-- The spec's §4.1 parse contract, stated the way the spec words it: a
keyed mapping (not a list, not null) with `id`, `url`, `name` text and
`width`, `height` numeric; `dpi` numeric if present; `offset` a mapping
with numeric `x`, `y` if present; `rotation` numeric if present. -/
def ImageOptionShape (v : Value) : Prop :=
  (∃ fs, v = Value.vObj fs) ∧
  (∃ s, v.get "id" = some (.vStr s)) ∧
  (∃ s, v.get "url" = some (.vStr s)) ∧
  (∃ q, v.get "width" = some (.vNum q)) ∧
  (∃ q, v.get "height" = some (.vNum q)) ∧
  (∃ s, v.get "name" = some (.vStr s)) ∧
  (∀ w, v.get "dpi" = some w → ∃ q, w = Value.vNum q) ∧
  (∀ w, v.get "offset" = some w →
    (∃ gs, w = Value.vObj gs) ∧
    (∃ q, w.get "x" = some (.vNum q)) ∧
    (∃ q, w.get "y" = some (.vNum q))) ∧
  (∀ w, v.get "rotation" = some w → ∃ q, w = Value.vNum q)

/-- A sample item with no plugin metadata at all. -/
def emptyMetaItem : Item :=
  { id := "item-1"
    name := "Hero"
    image := { url := "https://hero.png", width := 300, height := 400 }
    scale := { x := 2, y := 2 }
    rotation := 90
    grid := none
    metadata := [] }

/-- A sample variant record with nonzero dimensions. -/
def demoOption : ImageOption :=
  { id := "opt-1"
    url := "https://alt.png"
    width := 60
    height := 50
    name := "Alt"
    dpi := none
    offset := none
    rotation := none }

/-- A codec-accepted record whose `width` and `height` are zero. -/
def degenerateRecord : Value :=
  .vObj [("id", .vStr "deg"), ("url", .vStr "https://zero.png"),
         ("width", .vNum 0), ("height", .vNum 0), ("name", .vStr "Degenerate")]

/-- A valid stored entry with id `"a"`. -/
def validEntryA : Value :=
  .vObj [("id", .vStr "a"), ("url", .vStr "https://a.png"),
         ("width", .vNum 10), ("height", .vNum 10), ("name", .vStr "A")]

/-- A stored entry that is not a valid record (a bare string). -/
def corruptEntry : Value :=
  .vStr "corrupt"

/-- A stored entry that fails `isImageOption` (it lacks every required field
but `url`) yet carries a `url` field. -/
def invalidWithUrl : Value :=
  .vObj [("url", .vStr "https://dup.png")]

/-- A sample item whose stored list mixes an invalid entry with a valid one,
next to a sibling metadata key and a sibling plugin-value key. -/
def mixedItem : Item :=
  { id := "item-2"
    name := "Token"
    image := { url := "https://live.png", width := 100, height := 100 }
    scale := { x := 1, y := 1 }
    rotation := 0
    grid := none
    metadata :=
      [("other.extension/data", .vStr "keep"),
       (pluginMetaKey,
        .vObj [("sibling", .vStr "keep-too"),
               ("imageOptions", .vArr [corruptEntry, validEntryA])])] }

/-- A sample item whose stored list holds exactly the invalid-but-url-bearing
entry. -/
def dupUrlItem : Item :=
  { id := "item-3"
    name := "Prop"
    image := { url := "https://prop.png", width := 50, height := 50 }
    scale := { x := 1, y := 1 }
    rotation := 0
    grid := none
    metadata :=
      [(pluginMetaKey, .vObj [("imageOptions", .vArr [invalidWithUrl])])] }

/-- A record whose url collides with `invalidWithUrl`'s url field. -/
def dupOption : ImageOption :=
  { id := "opt-dup"
    url := "https://dup.png"
    width := 20
    height := 20
    name := "Dup"
    dpi := none
    offset := none
    rotation := some 0 }

/-- A sample item with an empty stored list. -/
def emptyListItem : Item :=
  { id := "item-4"
    name := "Blank"
    image := { url := "https://blank.png", width := 10, height := 10 }
    scale := { x := 1, y := 1 }
    rotation := 0
    grid := none
    metadata := [(pluginMetaKey, .vObj [("imageOptions", .vArr [])])] }

/-- The non-destructive-merge contract for one metadata write: every bag
key other than the plugin's key is unchanged, and when the old plugin value
was a plain object, the new plugin value is a plain object agreeing with it
on every key other than `imageOptions`. -/
def nonDestructiveWrite (before after : Item) : Prop :=
  (∀ k, k ≠ pluginMetaKey → after.metadata.lookup k = before.metadata.lookup k) ∧
  (∀ fs k, before.metadata.lookup pluginMetaKey = some (.vObj fs) →
    k ≠ "imageOptions" →
    ∃ fs', after.metadata.lookup pluginMetaKey = some (.vObj fs') ∧
      fs'.lookup k = fs.lookup k)

theorem lookup_setField_self {β : Type} (fs : List (String × β)) (k : String) (v : β) :
    (setField fs k v).lookup k = some v := by
  induction fs with
  | nil => simp [setField, List.lookup]
  | cons p t ih =>
    rcases p with ⟨a, b⟩
    by_cases ha : a = k
    · simpa [setField, List.filter_cons, ha] using ih
    · have hk : k ≠ a := fun h => ha h.symm
      simpa [setField, List.filter_cons, ha, List.lookup, beq_false_of_ne hk] using ih

theorem lookup_setField_ne {β : Type} (fs : List (String × β)) (k k' : String) (v : β)
    (h : k' ≠ k) : (setField fs k v).lookup k' = fs.lookup k' := by
  induction fs with
  | nil => simp [setField, List.lookup, beq_false_of_ne h]
  | cons p t ih =>
    rcases p with ⟨a, b⟩
    by_cases ha : a = k
    · subst ha
      simpa [setField, List.filter_cons, List.lookup, beq_false_of_ne h] using ih
    · by_cases hk : k' = a
      · simp [setField, List.filter_cons, ha, List.lookup, hk]
      · simpa [setField, List.filter_cons, ha, List.lookup, beq_false_of_ne hk] using ih

theorem storedList_writePluginOptions (item : Item) (opts : List Value) :
    storedList (writePluginOptions item opts) = some opts := by
  dsimp only [storedList, writePluginOptions]
  rw [lookup_setField_self]
  dsimp only [storedRawOptions]
  rw [lookup_setField_self]

theorem image_writePluginOptions (item : Item) (opts : List Value) :
    (writePluginOptions item opts).image = item.image := rfl

theorem nonDestructiveWrite_write (item : Item) (opts : List Value) :
    nonDestructiveWrite item (writePluginOptions item opts) := by
  constructor
  · intro k hk
    exact lookup_setField_ne _ _ _ _ hk
  · intro fs k hfs hk
    refine ⟨setField fs "imageOptions" (.vArr opts), ?_, lookup_setField_ne _ _ _ _ hk⟩
    dsimp only [writePluginOptions]
    rw [lookup_setField_self, hfs]
    rfl

theorem nonDestructiveWrite_refl (item : Item) :
    nonDestructiveWrite item item :=
  ⟨fun _ _ => rfl, fun fs _ hfs _ => ⟨fs, hfs, rfl⟩⟩

theorem isImageOption_encode (o : ImageOption) : isImageOption o.encode = true := by
  rcases o with ⟨i, u, w, h, n, dpi, off, rot⟩
  cases dpi <;> cases off <;> cases rot <;> rfl

theorem urlMatches_encode (o : ImageOption) (u : String) :
    urlMatches o.encode u = (o.url == u) := by
  rcases o with ⟨i, u', w, h, n, dpi, off, rot⟩
  cases dpi <;> cases off <;> cases rot <;> rfl

theorem isPlainObject_iff (v : Value) :
    isPlainObject v = true ↔ ∃ fs, v = Value.vObj fs := by
  cases v <;> simp [isPlainObject]

theorem isStrOpt_iff (o : Option Value) :
    isStrOpt o = true ↔ ∃ s, o = some (.vStr s) := by
  cases o with
  | none => simp [isStrOpt]
  | some v => cases v <;> simp [isStrOpt]

theorem isNumOpt_iff (o : Option Value) :
    isNumOpt o = true ↔ ∃ q, o = some (.vNum q) := by
  cases o with
  | none => simp [isNumOpt]
  | some v => cases v <;> simp [isNumOpt]

theorem optNumOk_iff (o : Option Value) :
    optNumOk o = true ↔ ∀ w, o = some w → ∃ q, w = Value.vNum q := by
  cases o with
  | none => simp [optNumOk]
  | some v => cases v <;> simp [optNumOk, isNumOpt]

theorem offsetFieldOk_iff (o : Option Value) :
    offsetFieldOk o = true ↔
      ∀ w, o = some w →
        (∃ gs, w = Value.vObj gs) ∧
        (∃ q, w.get "x" = some (.vNum q)) ∧
        (∃ q, w.get "y" = some (.vNum q)) := by
  cases o with
  | none => simp [offsetFieldOk]
  | some off =>
    simp only [offsetFieldOk, Bool.and_eq_true, isPlainObject_iff, isNumOpt_iff,
      Option.some.injEq, forall_eq', and_assoc]

theorem addImageOptionItem_stored (o : ImageOption) (item : Item) (l : List Value)
    (hl : storedList item = some l) :
    storedList (addImageOptionItem o item) =
      some (if l.any (fun e => urlMatches e o.url) then l else l ++ [o.encode]) := by
  unfold addImageOptionItem
  rw [hl]
  cases hc : l.any (fun e => urlMatches e o.url) <;>
    simp [hc, storedList_writePluginOptions]

theorem saveCurrentImageStateItem_stored (o : ImageOption) (item : Item) :
    storedList (saveCurrentImageStateItem o item) =
      some ((storedList item).getD [] ++ [o.encode]) :=
  storedList_writePluginOptions _ _

theorem countP_not_length {α : Type} (p : α → Bool) (l : List α) :
    l.countP (fun a => !(p a)) = l.length - l.countP p := by
  induction l with
  | nil => rfl
  | cons a t ih =>
    have hle : t.countP p ≤ t.length := List.countP_le_length p
    cases hpa : p a
    · simp [List.countP_cons, hpa, ih, List.length_cons]
      omega
    · simp [List.countP_cons, hpa, ih, List.length_cons]

/-- C2: `isImageOption` accepts a value exactly when it is a plain keyed
mapping (not a list, not null) whose `id`, `url`, `name` fields are strings
and `width`, `height` fields are numbers, whose `dpi` is a number if
present, whose `offset` is a mapping with numeric `x` and `y` if present,
and whose `rotation` is a number if present; every other value, including
partially-shaped objects, is rejected. -/
theorem isImageOption_iff_shape (v : Value) :
    isImageOption v = true ↔ ImageOptionShape v := by
  unfold isImageOption ImageOptionShape
  simp only [Bool.and_eq_true, isPlainObject_iff, isStrOpt_iff, isNumOpt_iff,
    optNumOk_iff, offsetFieldOk_iff, and_assoc]

/-- C3 counterexample: the codec accepts a record whose `width` and `height`
are both `0`, refuting "every codec-accepted record has width > 0 and
height > 0" (and with it the claim that the scale recomputation never
divides by zero). -/
theorem isImageOption_accepts_zero_dimensions :
    isImageOption degenerateRecord = true ∧
    degenerateRecord.get "width" = some (.vNum 0) ∧
    degenerateRecord.get "height" = some (.vNum 0) ∧
    ¬((0 : ℚ) > 0) :=
  ⟨rfl, rfl, rfl, lt_irrefl 0⟩

/-- C3 (amended): every record accepted by `isImageOption` has numeric
`width` and `height` fields, but no positivity constraint is enforced, so
the Switcher's scale recomputation is not protected from a zero (or
negative) divisor by the codec. -/
theorem isImageOption_numeric_dimensions (v : Value)
    (h : isImageOption v = true) :
    (∃ q, v.get "width" = some (.vNum q)) ∧
    (∃ q, v.get "height" = some (.vNum q)) := by
  unfold isImageOption at h
  simp only [Bool.and_eq_true, isNumOpt_iff] at h
  tauto

/-- Witness for the amended C3 at a concrete accepted record. -/
theorem isImageOption_numeric_dimensions_witness :
    (∃ q, validEntryA.get "width" = some (.vNum q)) ∧
    (∃ q, validEntryA.get "height" = some (.vNum q)) :=
  isImageOption_numeric_dimensions validEntryA rfl

/-- C1: for every image item and every variant record with nonzero `width`
and `height`, `updateItemWithImageOption` leaves the rendered footprint
unchanged: the new native width times the new x-scale equals the old native
width times the old x-scale, and likewise for height. -/
theorem updateItem_preserves_footprint (o : ImageOption) (item : Item)
    (hw : o.width ≠ 0) (hh : o.height ≠ 0) :
    (updateItemWithImageOption o item).image.width *
        (updateItemWithImageOption o item).scale.x =
      item.image.width * item.scale.x ∧
    (updateItemWithImageOption o item).image.height *
        (updateItemWithImageOption o item).scale.y =
      item.image.height * item.scale.y := by
  unfold updateItemWithImageOption
  dsimp only
  constructor
  · field_simp
  · field_simp

/-- Witness for C1 at a concrete item and record. -/
theorem updateItem_preserves_footprint_witness :
    (updateItemWithImageOption demoOption emptyMetaItem).image.width *
        (updateItemWithImageOption demoOption emptyMetaItem).scale.x =
      emptyMetaItem.image.width * emptyMetaItem.scale.x ∧
    (updateItemWithImageOption demoOption emptyMetaItem).image.height *
        (updateItemWithImageOption demoOption emptyMetaItem).scale.y =
      emptyMetaItem.image.height * emptyMetaItem.scale.y :=
  updateItem_preserves_footprint demoOption emptyMetaItem (by decide) (by decide)

/-- C4 counterexample: on a stored list mixing an invalid entry with the
valid record of id `"a"`, removing `"a"` leaves the invalid entry in place:
the resulting stored list is `[corruptEntry]` of length 1, not the
(valid-count − 1) = 0 the claim predicts — invalid entries are kept, not
dropped. -/
theorem removeImageOption_keeps_invalid_entries :
    isImageOption corruptEntry = false ∧
    isImageOption validEntryA = true ∧
    storedList mixedItem = some [corruptEntry, validEntryA] ∧
    ([corruptEntry, validEntryA].countP (fun e => isImageOption e)) = 1 ∧
    storedList (removeImageOptionItem "a" mixedItem) = some [corruptEntry] ∧
    ((storedList (removeImageOptionItem "a" mixedItem)).getD []).length ≠
      ([corruptEntry, validEntryA].countP (fun e => isImageOption e)) - 1 :=
  ⟨rfl, rfl, rfl, rfl, rfl, by decide⟩

/-- C4 (amended): removal by id drops exactly the valid records whose id
matches and keeps every other entry — invalid entries included — so the
resulting stored list length equals the input length minus the number of
valid entries with that id, and when no valid entry has that id the stored
list (invalid entries and all) is unchanged. -/
theorem removeImageOption_drops_valid_matches (optionId : String) (item : Item)
    (l : List Value) (h : storedList item = some l) :
    storedList (removeImageOptionItem optionId item) =
      some (l.filter (removeKeep optionId)) ∧
    (l.filter (removeKeep optionId)).length =
      l.length - l.countP (fun e => isImageOption e && idMatches e optionId) ∧
    (l.countP (fun e => isImageOption e && idMatches e optionId) = 0 →
      l.filter (removeKeep optionId) = l) := by
  have hkeep : ∀ e, removeKeep optionId e =
      !(isImageOption e && idMatches e optionId) := by
    intro e
    unfold removeKeep
    cases isImageOption e <;> cases idMatches e optionId <;> rfl
  refine ⟨?_, ?_, ?_⟩
  · unfold removeImageOptionItem
    rw [h]
    exact storedList_writePluginOptions _ _
  · calc (l.filter (removeKeep optionId)).length
        = l.countP (removeKeep optionId) :=
          (List.countP_eq_length_filter _ _).symm
      _ = l.countP (fun e => !(isImageOption e && idMatches e optionId)) :=
          List.countP_congr (fun e _ => by rw [hkeep])
      _ = l.length - l.countP (fun e => isImageOption e && idMatches e optionId) :=
          countP_not_length _ _
  · intro h0
    refine List.filter_eq_self.mpr (fun e he => ?_)
    have h2 : (isImageOption e && idMatches e optionId) = false :=
      Bool.eq_false_iff.mpr (List.countP_eq_zero.mp h0 e he)
    rw [hkeep, h2]
    rfl

/-- Witness for the amended C4 at the concrete mixed list. -/
theorem removeImageOption_drops_valid_matches_witness :
    storedList (removeImageOptionItem "a" mixedItem) =
      some ([corruptEntry, validEntryA].filter (removeKeep "a")) ∧
    ([corruptEntry, validEntryA].filter (removeKeep "a")).length =
      [corruptEntry, validEntryA].length -
        [corruptEntry, validEntryA].countP
          (fun e => isImageOption e && idMatches e "a") ∧
    ([corruptEntry, validEntryA].countP
        (fun e => isImageOption e && idMatches e "a") = 0 →
      [corruptEntry, validEntryA].filter (removeKeep "a") =
        [corruptEntry, validEntryA]) :=
  removeImageOption_drops_valid_matches "a" mixedItem [corruptEntry, validEntryA] rfl

/-- C10: when the item's metadata bag lacks the plugin key, or the plugin
value is not a plain object, or its `imageOptions` field is not an array
(`storedList item = none` holds exactly in these cases), `removeImageOption`
leaves the item — metadata included — entirely unchanged: no empty list is
initialized and no write happens. -/
theorem removeImageOption_no_metadata_no_write (optionId : String) (item : Item)
    (h : storedList item = none) :
    removeImageOptionItem optionId item = item := by
  unfold removeImageOptionItem
  rw [h]

/-- Witness for C10 at an item with an empty metadata bag. -/
theorem removeImageOption_no_metadata_no_write_witness :
    removeImageOptionItem "a" emptyMetaItem = emptyMetaItem :=
  removeImageOption_no_metadata_no_write "a" emptyMetaItem rfl

/-- C5: `addImageOption` appends the new record exactly when no existing
stored entry has its url; called twice with the same url on a list that did
not yet contain it, the stored list gains the record once and ends with
exactly one entry carrying that url. -/
theorem addImageOption_dedups_by_url (o1 o2 : ImageOption) (item : Item)
    (l : List Value)
    (hl : storedList item = some l)
    (hu : o2.url = o1.url)
    (h0 : l.any (fun e => urlMatches e o1.url) = false) :
    storedList (addImageOptionItem o1 item) = some (l ++ [o1.encode]) ∧
    storedList (addImageOptionItem o2 (addImageOptionItem o1 item)) =
      some (l ++ [o1.encode]) ∧
    (l ++ [o1.encode]).countP (fun e => urlMatches e o1.url) = 1 := by
  have h1 : storedList (addImageOptionItem o1 item) = some (l ++ [o1.encode]) := by
    rw [addImageOptionItem_stored o1 item l hl, h0]
    rfl
  have hany : (l ++ [o1.encode]).any (fun e => urlMatches e o2.url) = true := by
    rw [hu]
    exact List.any_eq_true.mpr
      ⟨o1.encode, List.mem_append_right _ (List.mem_singleton.mpr rfl),
        by rw [urlMatches_encode]; exact beq_self_eq_true o1.url⟩
  have h2 : storedList (addImageOptionItem o2 (addImageOptionItem o1 item)) =
      some (l ++ [o1.encode]) := by
    rw [addImageOptionItem_stored o2 _ _ h1, hany]
    rfl
  refine ⟨h1, h2, ?_⟩
  have hzero : l.countP (fun e => urlMatches e o1.url) = 0 :=
    List.countP_eq_zero.mpr (List.any_eq_false.mp h0)
  rw [List.countP_append, hzero]
  simp [List.countP_cons, urlMatches_encode]

/-- Witness for C5 at an item with an empty stored list. -/
theorem addImageOption_dedups_by_url_witness :
    storedList (addImageOptionItem demoOption emptyListItem) =
      some ([] ++ [demoOption.encode]) ∧
    storedList
        (addImageOptionItem demoOption (addImageOptionItem demoOption emptyListItem)) =
      some ([] ++ [demoOption.encode]) ∧
    ([] ++ [demoOption.encode]).countP
      (fun e => urlMatches e demoOption.url) = 1 :=
  addImageOption_dedups_by_url demoOption demoOption emptyListItem [] rfl rfl rfl

/-- C6: on an item with no (parseable) variant metadata, `getImageOptions`
synthesizes exactly one record from the live appearance, persists it, and
returns it; a second call finds the persisted record, performs no write
(the item is returned unchanged) and returns the same single record. -/
theorem getImageOptions_synthesizes_once (item : Item) (fid1 fid2 : String)
    (h : storedList item = none) :
    (getImageOptions fid1 item).1 = [(synthesizeOption fid1 item).encode] ∧
    storedList (getImageOptions fid1 item).2 =
      some [(synthesizeOption fid1 item).encode] ∧
    getImageOptions fid2 (getImageOptions fid1 item).2 =
      ([(synthesizeOption fid1 item).encode], (getImageOptions fid1 item).2) := by
  have hfst : (getImageOptions fid1 item).1 =
      [(synthesizeOption fid1 item).encode] := by
    unfold getImageOptions
    rw [h]
  have hsnd : (getImageOptions fid1 item).2 =
      writePluginOptions item [(synthesizeOption fid1 item).encode] := by
    unfold getImageOptions
    rw [h]
  have hst : storedList (getImageOptions fid1 item).2 =
      some [(synthesizeOption fid1 item).encode] := by
    rw [hsnd]
    exact storedList_writePluginOptions _ _
  refine ⟨hfst, hst, ?_⟩
  generalize (getImageOptions fid1 item).2 = item1 at hst
  unfold getImageOptions
  rw [hst]
  simp [isImageOption_encode]

/-- Witness for C6 at an item with an empty metadata bag. -/
theorem getImageOptions_synthesizes_once_witness :
    (getImageOptions "uuid-1" emptyMetaItem).1 =
      [(synthesizeOption "uuid-1" emptyMetaItem).encode] ∧
    storedList (getImageOptions "uuid-1" emptyMetaItem).2 =
      some [(synthesizeOption "uuid-1" emptyMetaItem).encode] ∧
    getImageOptions "uuid-2" (getImageOptions "uuid-1" emptyMetaItem).2 =
      ([(synthesizeOption "uuid-1" emptyMetaItem).encode],
        (getImageOptions "uuid-1" emptyMetaItem).2) :=
  getImageOptions_synthesizes_once emptyMetaItem "uuid-1" "uuid-2" rfl

/-- C7: `saveCurrentImageState` always appends a record built from the
item's current live appearance under a fresh id and never deduplicates by
url: two invocations on the same unchanged item store two records sharing
the url but with distinct ids. -/
theorem saveCurrentState_never_dedups (item item1 item2 : Item)
    (o1 o2 : ImageOption) (id1 id2 : String) (n1 n2 : Option String)
    (hid : id1 ≠ id2)
    (ho1 : o1 = saveCurrentOption id1 n1 item)
    (h1 : item1 = saveCurrentImageStateItem o1 item)
    (ho2 : o2 = saveCurrentOption id2 n2 item1)
    (h2 : item2 = saveCurrentImageStateItem o2 item1) :
    storedList item2 =
      some ((storedList item).getD [] ++ [o1.encode, o2.encode]) ∧
    o2.url = o1.url ∧ o1.id ≠ o2.id := by
  subst ho1 h1 ho2 h2
  refine ⟨?_, rfl, hid⟩
  rw [saveCurrentImageStateItem_stored, saveCurrentImageStateItem_stored]
  simp

/-- Witness for C7 at a concrete item saved twice. -/
theorem saveCurrentState_never_dedups_witness :
    storedList
        (saveCurrentImageStateItem
          (saveCurrentOption "s2" none
            (saveCurrentImageStateItem (saveCurrentOption "s1" none emptyListItem)
              emptyListItem))
          (saveCurrentImageStateItem (saveCurrentOption "s1" none emptyListItem)
            emptyListItem)) =
      some ((storedList emptyListItem).getD [] ++
        [(saveCurrentOption "s1" none emptyListItem).encode,
         (saveCurrentOption "s2" none
           (saveCurrentImageStateItem (saveCurrentOption "s1" none emptyListItem)
             emptyListItem)).encode]) ∧
    (saveCurrentOption "s2" none
        (saveCurrentImageStateItem (saveCurrentOption "s1" none emptyListItem)
          emptyListItem)).url =
      (saveCurrentOption "s1" none emptyListItem).url ∧
    (saveCurrentOption "s1" none emptyListItem).id ≠
      (saveCurrentOption "s2" none
        (saveCurrentImageStateItem (saveCurrentOption "s1" none emptyListItem)
          emptyListItem)).id :=
  saveCurrentState_never_dedups emptyListItem _ _ _ _ "s1" "s2" none none
    (by decide) rfl rfl rfl rfl

/-- C8: every metadata write performed by the store operations — initial
synthesis, add, save-current-state, remove — is a non-destructive merge:
bag keys other than the plugin key are unchanged, and within the plugin
value every key other than `imageOptions` is preserved. -/
theorem store_writes_nondestructive (item : Item) (o : ImageOption)
    (optionId fid : String) :
    nonDestructiveWrite item (addImageOptionItem o item) ∧
    nonDestructiveWrite item (saveCurrentImageStateItem o item) ∧
    nonDestructiveWrite item (removeImageOptionItem optionId item) ∧
    nonDestructiveWrite item (getImageOptions fid item).2 := by
  refine ⟨nonDestructiveWrite_write _ _, nonDestructiveWrite_write _ _, ?_, ?_⟩
  · unfold removeImageOptionItem
    cases hsl : storedList item
    · exact nonDestructiveWrite_refl _
    · exact nonDestructiveWrite_write _ _
  · unfold getImageOptions
    cases hsl : storedList item
    · exact nonDestructiveWrite_write _ _
    · exact nonDestructiveWrite_refl _

/-- C9: `addImageOption` and `saveCurrentImageState` copy raw stored
entries verbatim without validating them, so invalid entries survive both
operations; and the add dedup check ranges over those raw entries, so an
invalid entry whose url field equals the new record's url suppresses the
append. -/
theorem raw_entries_survive_and_gate_dedup (o : ImageOption) (item : Item)
    (l : List Value) (bad : Value)
    (hl : storedList item = some l)
    (hmem : bad ∈ l)
    (hbad : isImageOption bad = false)
    (hurl : urlMatches bad o.url = true) :
    isImageOption bad = false ∧
    storedList (saveCurrentImageStateItem o item) = some (l ++ [o.encode]) ∧
    bad ∈ l ++ [o.encode] ∧
    storedList (addImageOptionItem o item) = some l := by
  have hany : l.any (fun e => urlMatches e o.url) = true :=
    List.any_eq_true.mpr ⟨bad, hmem, hurl⟩
  refine ⟨hbad, ?_, List.mem_append_left _ hmem, ?_⟩
  · rw [saveCurrentImageStateItem_stored, hl]
    rfl
  · rw [addImageOptionItem_stored o item l hl, hany]
    rfl

/-- Witness for C9 at a stored list holding only an invalid url-bearing
entry. -/
theorem raw_entries_survive_and_gate_dedup_witness :
    isImageOption invalidWithUrl = false ∧
    storedList (saveCurrentImageStateItem dupOption dupUrlItem) =
      some ([invalidWithUrl] ++ [dupOption.encode]) ∧
    invalidWithUrl ∈ [invalidWithUrl] ++ [dupOption.encode] ∧
    storedList (addImageOptionItem dupOption dupUrlItem) =
      some [invalidWithUrl] :=
  raw_entries_survive_and_gate_dedup dupOption dupUrlItem [invalidWithUrl]
    invalidWithUrl rfl (List.mem_singleton.mpr rfl) rfl rfl
